import Mathlib

/-!
Shallow embedding of the mc-protocol codec engine.

Source files modelled here:
* `src/segment/mod.rs` — the `Segment` trait (`read_from_stream` /
  `write_to_stream`, with the `Default` super-trait), modelled as the
  bundled structure `SegCodec`.
* `src/segment/implementation/num.rs` — primitive codecs for `bool`
  and the fixed-width integers (big-endian, two's complement).
* `src/segment/implementation/mod.rs` — the `Option<T>` and `Box<T>`
  codecs.
* `src/protocol/mod.rs` — the `define_protocol!` macro: the generated
  packet-record `Segment` impls (conditional fields) and the generated
  `packet_by_id` dispatcher.

Streams are modelled as `List Nat` of bytes consumed from the front;
`read_from_stream` returns the new value together with the remaining
stream, `write_to_stream` returns the bytes produced.  Machine integers
are modelled as `Nat` / `Int` with explicit `% 2^w` where the Rust type
bound matters.  `std::io::Error` is modelled by `StreamError`: the only
failure the primitive codecs produce is an unexpected end of stream, and
record/dispatcher code propagates whatever error a field codec returns.
-/

namespace MCProto

/-- Model of `std::io::Error` as it is used by the codecs: a short read
surfaces as `unexpectedEof`; `other` stands for any distinct error value
so that "the error propagates unchanged" is a meaningful statement. -/
inductive StreamError where
  | unexpectedEof
  | other (code : Nat)
deriving DecidableEq

/-- Model of the `Segment` trait of `src/segment/mod.rs` bundled with its
`Default` super-trait: a value type, its default, and the two stream
operations.  `read_from_stream` receives the current value (Rust's
`&mut self`) and the input bytes and returns the updated value plus the
remaining bytes; `write_to_stream` returns the bytes written. -/
structure SegCodec where
  Ty : Type
  default : Ty
  read_from_stream : Ty → List Nat → Except StreamError (Ty × List Nat)
  write_to_stream : Ty → Except StreamError (List Nat)

/-- The `impl Segment for bool` of `src/segment/implementation/num.rs`:
one byte; decode sets `*self = byte != 0`; encode writes `1` / `0`. -/
def boolSegment : SegCodec where
  Ty := Bool
  default := false
  read_from_stream := fun _ input =>
    match input with
    | [] => .error .unexpectedEof
    | b :: rest => .ok (b != 0, rest)
  write_to_stream := fun v => .ok [if v then 1 else 0]

/-- The `impl Segment for u8` of `num.rs`: one byte, value written with
an explicit `% 256` standing for the `u8` type bound. -/
def u8Segment : SegCodec where
  Ty := Nat
  default := 0
  read_from_stream := fun _ input =>
    match input with
    | [] => .error .unexpectedEof
    | b :: rest => .ok (b, rest)
  write_to_stream := fun v => .ok [v % 256]

/-- The `impl Segment for u16` of `num.rs`: two bytes, big-endian. -/
def u16Segment : SegCodec where
  Ty := Nat
  default := 0
  read_from_stream := fun _ input =>
    match input with
    | b0 :: b1 :: rest => .ok (b0 * 256 + b1, rest)
    | _ => .error .unexpectedEof
  write_to_stream := fun v => .ok [v / 256 % 256, v % 256]

/-- The `impl Segment for u32` of `num.rs`: four bytes, big-endian. -/
def u32Segment : SegCodec where
  Ty := Nat
  default := 0
  read_from_stream := fun _ input =>
    match input with
    | b0 :: b1 :: b2 :: b3 :: rest =>
      .ok (b0 * 16777216 + b1 * 65536 + b2 * 256 + b3, rest)
    | _ => .error .unexpectedEof
  write_to_stream := fun v =>
    .ok [v / 16777216 % 256, v / 65536 % 256, v / 256 % 256, v % 256]

/-- The `impl Segment for u64` of `num.rs`: eight bytes, big-endian. -/
def u64Segment : SegCodec where
  Ty := Nat
  default := 0
  read_from_stream := fun _ input =>
    match input with
    | b0 :: b1 :: b2 :: b3 :: b4 :: b5 :: b6 :: b7 :: rest =>
      .ok (b0 * 72057594037927936 + b1 * 281474976710656 +
           b2 * 1099511627776 + b3 * 4294967296 +
           b4 * 16777216 + b5 * 65536 + b6 * 256 + b7, rest)
    | _ => .error .unexpectedEof
  write_to_stream := fun v =>
    .ok [v / 72057594037927936 % 256, v / 281474976710656 % 256,
         v / 1099511627776 % 256, v / 4294967296 % 256,
         v / 16777216 % 256, v / 65536 % 256, v / 256 % 256, v % 256]

/-- The `impl Segment for i8` of `num.rs`: one byte, two's complement.
The written byte is the bit pattern `v mod 2^8`; decode reinterprets a
byte `≥ 128` as negative. -/
def i8Segment : SegCodec where
  Ty := Int
  default := 0
  read_from_stream := fun _ input =>
    match input with
    | b :: rest =>
      .ok (if b < 128 then (b : Int) else (b : Int) - 256, rest)
    | _ => .error .unexpectedEof
  write_to_stream := fun v => .ok [(v % 256).toNat]

/-- The `impl Segment for i16` of `num.rs`: two bytes, big-endian,
two's complement. -/
def i16Segment : SegCodec where
  Ty := Int
  default := 0
  read_from_stream := fun _ input =>
    match input with
    | b0 :: b1 :: rest =>
      let u : Nat := b0 * 256 + b1
      .ok (if u < 32768 then (u : Int) else (u : Int) - 65536, rest)
    | _ => .error .unexpectedEof
  write_to_stream := fun v =>
    .ok [(v % 65536).toNat / 256 % 256, (v % 65536).toNat % 256]

/-- The `impl Segment for i32` of `num.rs`: four bytes, big-endian,
two's complement. -/
def i32Segment : SegCodec where
  Ty := Int
  default := 0
  read_from_stream := fun _ input =>
    match input with
    | b0 :: b1 :: b2 :: b3 :: rest =>
      let u : Nat := b0 * 16777216 + b1 * 65536 + b2 * 256 + b3
      .ok (if u < 2147483648 then (u : Int) else (u : Int) - 4294967296, rest)
    | _ => .error .unexpectedEof
  write_to_stream := fun v =>
    .ok [(v % 4294967296).toNat / 16777216 % 256,
         (v % 4294967296).toNat / 65536 % 256,
         (v % 4294967296).toNat / 256 % 256,
         (v % 4294967296).toNat % 256]

/-- The `impl Segment for i64` of `num.rs`: eight bytes, big-endian,
two's complement. -/
def i64Segment : SegCodec where
  Ty := Int
  default := 0
  read_from_stream := fun _ input =>
    match input with
    | b0 :: b1 :: b2 :: b3 :: b4 :: b5 :: b6 :: b7 :: rest =>
      let u : Nat := b0 * 72057594037927936 + b1 * 281474976710656 +
           b2 * 1099511627776 + b3 * 4294967296 +
           b4 * 16777216 + b5 * 65536 + b6 * 256 + b7
      .ok (if u < 9223372036854775808 then (u : Int)
           else (u : Int) - 18446744073709551616, rest)
    | _ => .error .unexpectedEof
  write_to_stream := fun v =>
    .ok [(v % 18446744073709551616).toNat / 72057594037927936 % 256,
         (v % 18446744073709551616).toNat / 281474976710656 % 256,
         (v % 18446744073709551616).toNat / 1099511627776 % 256,
         (v % 18446744073709551616).toNat / 4294967296 % 256,
         (v % 18446744073709551616).toNat / 16777216 % 256,
         (v % 18446744073709551616).toNat / 65536 % 256,
         (v % 18446744073709551616).toNat / 256 % 256,
         (v % 18446744073709551616).toNat % 256]

/-- The `impl<T: Segment> Segment for Option<T>` of
`src/segment/implementation/mod.rs`.  Decode ignores the receiver,
always constructs a default `T`, decodes into it and stores `some`;
encode writes nothing for `none` and forwards for `some`.  The Rust
`Option<T>` default is `None`. -/
def optionSegment (C : SegCodec) : SegCodec where
  Ty := Option C.Ty
  default := none
  read_from_stream := fun _ input =>
    match C.read_from_stream C.default input with
    | .error e => .error e
    | .ok (t, rest) => .ok (some t, rest)
  write_to_stream := fun v =>
    match v with
    | some inner => C.write_to_stream inner
    | none => .ok []

/-- The `impl<T: Segment> Segment for Box<T>` of
`src/segment/implementation/mod.rs`: transparent forwarding, the heap
indirection has no wire effect. -/
def boxSegment (C : SegCodec) : SegCodec where
  Ty := C.Ty
  default := C.default
  read_from_stream := C.read_from_stream
  write_to_stream := C.write_to_stream

/-!
The packet-record model: the `Segment` impl generated by
`define_protocol!` (src/protocol/mod.rs lines 66-84) for one record
type.  A record type is a schema of `n` ordered fields, each with a
codec (a `Segment` impl) and a presence predicate over the whole record
(the macro's `where |acceptor| condition` closure; a field declared
without `where` behaves exactly like the constant-true predicate, since
the macro then emits the guarded block unconditionally).  The record
value is the dependent function sending every field index to its value.
-/

/-- The field-value assignment of a record whose fields carry the codecs
`fc`: Rust's generated `struct` with one `pub` field per declaration. -/
def RecState {n : Nat} (fc : Fin n → SegCodec) : Type :=
  (i : Fin n) → (fc i).Ty

/-- One record type produced by `define_protocol!`: the ordered field
codecs and the presence predicate of every field.  The predicate
receives the whole record, exactly as the macro's
`(|acceptor: &Self| condition)(self)` does. -/
structure RecordSchema (n : Nat) where
  fc : Fin n → SegCodec
  pred : Fin n → RecState fc → Bool

/-- The `#[derive(Default)]` record: every field holds its codec's
default value. -/
def defaultState {n : Nat} (S : RecordSchema n) : RecState S.fc :=
  fun i => (S.fc i).default

/-- The loop body of the generated `read_from_stream` (macro lines
69-74), processing fields `k, k+1, ...` in declaration order.  For each
field the macro evaluates `self.field = { let mut field = Default;
if pred(self) { field.read_from_stream(reader)? }; field }`: the
predicate sees `self` with fields before `k` already assigned and
fields from `k` on still holding the receiver's previous values, and
the field is assigned the freshly decoded value when the predicate is
true and the default value otherwise.  The fuel argument is always
called with `n - k`, so the loop covers exactly the fields of the
record. -/
def readFieldsAux {n : Nat} (S : RecordSchema n) :
    Nat → Nat → RecState S.fc → List Nat →
    Except StreamError (RecState S.fc × List Nat)
  | 0, _, s, input => .ok (s, input)
  | m + 1, k, s, input =>
    if h : k < n then
      if S.pred ⟨k, h⟩ s then
        match (S.fc ⟨k, h⟩).read_from_stream (S.fc ⟨k, h⟩).default input with
        | .error e => .error e
        | .ok (v, rest) =>
          readFieldsAux S m (k + 1) (Function.update s ⟨k, h⟩ v) rest
      else
        readFieldsAux S m (k + 1)
          (Function.update s ⟨k, h⟩ (S.fc ⟨k, h⟩).default) input
    else
      .ok (s, input)

/-- The generated `read_from_stream` of a packet record (macro lines
68-76): iterate `readFieldsAux` over all fields starting at field 0. -/
def Record.read_from_stream {n : Nat} (S : RecordSchema n)
    (s : RecState S.fc) (input : List Nat) :
    Except StreamError (RecState S.fc × List Nat) :=
  readFieldsAux S n 0 s input

/-- The loop body of the generated `write_to_stream` (macro lines
79-81): for each field in order, if the predicate holds of the (fully
populated, never mutated) record, append that field's encoding;
a field codec error propagates. -/
def writeFieldsAux {n : Nat} (S : RecordSchema n) :
    Nat → Nat → RecState S.fc → Except StreamError (List Nat)
  | 0, _, _ => .ok []
  | m + 1, k, s =>
    if h : k < n then
      if S.pred ⟨k, h⟩ s then
        match (S.fc ⟨k, h⟩).write_to_stream (s ⟨k, h⟩) with
        | .error e => .error e
        | .ok bs =>
          match writeFieldsAux S m (k + 1) s with
          | .error e => .error e
          | .ok rest => .ok (bs ++ rest)
      else
        writeFieldsAux S m (k + 1) s
    else
      .ok []

/-- The generated `write_to_stream` of a packet record (macro lines
78-83). -/
def Record.write_to_stream {n : Nat} (S : RecordSchema n)
    (s : RecState S.fc) : Except StreamError (List Nat) :=
  writeFieldsAux S n 0 s

/-- A packet record type packaged as a `Segment` impl, which is what
the generated `impl crate::segment::Segment for $packet` provides. -/
def recordSegment {n : Nat} (S : RecordSchema n) : SegCodec where
  Ty := RecState S.fc
  default := defaultState S
  read_from_stream := Record.read_from_stream S
  write_to_stream := Record.write_to_stream S

/-!
The dispatcher model: the `packet_by_id` function generated by
`define_protocol!` (src/protocol/mod.rs lines 97-120).  The generated
code is a nested `match` over the declared state blocks, direction
blocks and opcode arms, in declaration order, each level falling
through to `Ok(None)`; Rust `match` takes the first arm whose pattern
matches (the function carries `#[allow(unreachable_patterns)]`), which
is `List.find?` over the declared arms.
-/

/-- The `State` enum of src/protocol/mod.rs. -/
inductive State where
  | Handshaking
  | Status
  | Login
  | Play
deriving DecidableEq

/-- The `Direction` enum of src/protocol/mod.rs. -/
inductive Direction where
  | ClientBound
  | ServerBound
deriving DecidableEq

/-- One `$id => $packet` arm of the protocol grammar: the opcode
literal, the packet record codec (its generated `Segment` impl) and
the enum constructor `$struct_name::$packet` wrapping the decoded
record into the protocol union `Pkt`. -/
structure PacketEntry (Pkt : Type) where
  id : Int
  codec : SegCodec
  wrap : codec.Ty → Pkt

/-- A protocol schema: the declared state blocks in declaration order,
each with its direction blocks, each with its opcode arms. -/
def ProtocolSchema (Pkt : Type) :=
  List (State × List (Direction × List (PacketEntry Pkt)))

/-- The body of a matched opcode arm (macro lines 104-110):
`let mut p: Box<$packet> = Box::new(Default::default())`, read into it
through the `Box` forwarding impl, propagate an error unchanged, and
otherwise wrap the record in its union case. -/
def runEntry {Pkt : Type} (e : PacketEntry Pkt) (input : List Nat) :
    Except StreamError (Option Pkt × List Nat) :=
  match (boxSegment e.codec).read_from_stream (boxSegment e.codec).default input with
  | .error err => .error err
  | .ok (r, rest) => .ok (some (e.wrap r), rest)

/-- The innermost generated `match id` (macro lines 103-113): Rust
first-match over the declared opcode arms, falling through to
`Ok(None)`; a matched arm runs `runEntry`. -/
def idMatch {Pkt : Type} (entries : List (PacketEntry Pkt)) (id : Int)
    (input : List Nat) : Except StreamError (Option Pkt × List Nat) :=
  match entries.find? (fun arm => arm.id == id) with
  | none => .ok (none, input)
  | some e => runEntry e input

/-- The generated `match direction` level (macro lines 101-116):
first-match over the declared direction blocks, falling through to
`Ok(None)`. -/
def directionMatch {Pkt : Type}
    (dirs : List (Direction × List (PacketEntry Pkt)))
    (direction : Direction) (id : Int) (input : List Nat) :
    Except StreamError (Option Pkt × List Nat) :=
  match dirs.find? (fun arm => arm.1 == direction) with
  | none => .ok (none, input)
  | some (_, entries) => idMatch entries id input

/-- The generated `packet_by_id` (macro lines 98-120): first-match
over the declared state blocks, then direction blocks, then opcode
arms, with `Ok(None)` on every fall-through.  The returned list is the
part of the stream not consumed. -/
def packet_by_id {Pkt : Type} (schema : ProtocolSchema Pkt)
    (state : State) (direction : Direction) (id : Int) (input : List Nat) :
    Except StreamError (Option Pkt × List Nat) :=
  match schema.find? (fun arm => arm.1 == state) with
  | none => .ok (none, input)
  | some (_, dirs) => directionMatch dirs direction id input

/-- The record type a direction-block list registers for (direction,
opcode) under Rust first-match semantics, if any. -/
def registeredInDirs {Pkt : Type}
    (dirs : List (Direction × List (PacketEntry Pkt)))
    (direction : Direction) (id : Int) : Option (PacketEntry Pkt) :=
  match dirs.find? (fun arm => arm.1 == direction) with
  | none => none
  | some (_, entries) => entries.find? (fun arm => arm.id == id)

/-- The record type the schema registers for a (state, direction,
opcode) triple under Rust first-match semantics, if any. -/
def registeredEntry {Pkt : Type} (schema : ProtocolSchema Pkt)
    (state : State) (direction : Direction) (id : Int) :
    Option (PacketEntry Pkt) :=
  match schema.find? (fun arm => arm.1 == state) with
  | none => none
  | some (_, dirs) => registeredInDirs dirs direction id

/-!
Concrete instances used by the theorems below: the spec's scenario
record `{flag: bool, value: u8 where flag == true}`, the repository's
own test record shape `{test: u8, test2: u8 where |s| s.test2 > 1,
test3: u8}` (src/lib.rs), a bool-pair record, and two small protocol
schemas (one with a duplicated opcode, one with a single entry).
-/

/-- Field codecs of the scenario record `{flag: bool, value: u8}`. -/
def condFc : Fin 2 → SegCodec
  | ⟨0, _⟩ => boolSegment
  | ⟨1, _⟩ => u8Segment

/-- The scenario record type: field 0 `flag: bool` always present,
field 1 `value: u8 where |s| s.flag == true`. -/
def condSchema : RecordSchema 2 where
  fc := condFc
  pred := fun i s =>
    match i with
    | ⟨0, _⟩ => true
    | ⟨1, _⟩ => s ⟨0, by omega⟩

/-- The record value `{flag: false, value: 7}`. -/
def condFlag7 : RecState condSchema.fc
  | ⟨0, _⟩ => false
  | ⟨1, _⟩ => (7 : Nat)

/-- Field codecs of a two-bool record `{flag: bool, value: bool}`. -/
def boolPairFc : Fin 2 → SegCodec
  | ⟨0, _⟩ => boolSegment
  | ⟨1, _⟩ => boolSegment

/-- A record `{flag: bool, value: bool where |s| s.flag}`: like the
scenario record but with a bool-typed conditional field. -/
def boolPairSchema : RecordSchema 2 where
  fc := boolPairFc
  pred := fun i s =>
    match i with
    | ⟨0, _⟩ => true
    | ⟨1, _⟩ => s ⟨0, by omega⟩

/-- The record value `{flag: true, value: true}`. -/
def boolPairTT : RecState boolPairSchema.fc
  | ⟨0, _⟩ => true
  | ⟨1, _⟩ => true

/-- Field codecs of a three-`u8` record. -/
def u8TripleFc : Fin 3 → SegCodec := fun _ => u8Segment

/-- The repository's own test record shape (src/lib.rs, fields `test`,
`test2: u8 where |s|{s.test2 > 1}`, `test3`): the predicate of field 1
reads field 1 itself, which the macro accepts. -/
def selfCondSchema : RecordSchema 3 where
  fc := u8TripleFc
  pred := fun i s =>
    match i with
    | ⟨1, _⟩ => decide ((1 : Nat) < s ⟨1, by omega⟩)
    | _ => true

/-- A receiver whose field 1 initially holds `5` (fields 0 and 2 hold
the default `0`). -/
def recvFive : RecState selfCondSchema.fc
  | ⟨1, _⟩ => (5 : Nat)
  | _ => (0 : Nat)

/-- The protocol union of a schema that declares two record types for
the same (state, direction, opcode) triple. -/
inductive DupPkt where
  | fromA (v : Nat)
  | fromB (v : Nat)
deriving DecidableEq

/-- First record type registered at (Handshaking, ServerBound, 0x00):
a one-`u8` payload. -/
def dupEntryA : PacketEntry DupPkt := ⟨0, u8Segment, DupPkt.fromA⟩

/-- Second record type registered at the same triple
(Handshaking, ServerBound, 0x00): a one-`u16` payload. -/
def dupEntryB : PacketEntry DupPkt := ⟨0, u16Segment, DupPkt.fromB⟩

/-- A protocol schema in which two record types claim the same
(state, direction, opcode) triple — the macro accepts this grammar
(its dispatcher carries `#[allow(unreachable_patterns)]` and performs
no uniqueness check). -/
def dupSchema : ProtocolSchema DupPkt :=
  [(State.Handshaking, [(Direction.ServerBound, [dupEntryA, dupEntryB])])]

/-- The protocol union of a one-packet schema. -/
inductive OnePkt where
  | statusPing (v : Nat)
deriving DecidableEq

/-- The single entry of the one-packet schema: opcode 1, `u16` payload. -/
def oneEntry : PacketEntry OnePkt := ⟨1, u16Segment, OnePkt.statusPing⟩

/-- A schema with exactly one registered record type, at
(Status, ClientBound, 0x01). -/
def oneSchema : ProtocolSchema OnePkt :=
  [(State.Status, [(Direction.ClientBound, [oneEntry])])]

/-!
Theorems about the primitive codecs.
-/

/-- C8: the boolean codec uses exactly one byte: decoding a byte yields
`false` exactly when the byte is zero and `true` for any nonzero byte;
a short read fails; encoding writes the single byte `1` for `true` and
`0` for `false`. -/
theorem boolSegment_one_byte (self : Bool) (b : Nat) (rest : List Nat) :
    boolSegment.read_from_stream self (b :: rest) = .ok (b != 0, rest)
    ∧ ((b != 0) = false ↔ b = 0)
    ∧ ((b != 0) = true ↔ b ≠ 0)
    ∧ boolSegment.read_from_stream self [] = .error .unexpectedEof
    ∧ boolSegment.write_to_stream true = .ok [1]
    ∧ boolSegment.write_to_stream false = .ok [0] := by
  refine ⟨rfl, ?_, ?_, rfl, rfl, rfl⟩ <;> simp

/-- C9: every fixed-width integer codec writes exactly its width in
bytes (big-endian, two's complement for the signed types) and decoding
the produced bytes consumes exactly those bytes and reconstructs the
value, for every value in the range of the Rust type. -/
theorem intSegments_roundtrip
    (s : Nat) (si : Int) (rest : List Nat)
    (a : Nat) (ha : a < 256)
    (b : Nat) (hb : b < 65536)
    (c : Nat) (hc : c < 4294967296)
    (d : Nat) (hd : d < 18446744073709551616)
    (p : Int) (hp : -128 ≤ p ∧ p < 128)
    (q : Int) (hq : -32768 ≤ q ∧ q < 32768)
    (r : Int) (hr : -2147483648 ≤ r ∧ r < 2147483648)
    (t : Int) (ht : -9223372036854775808 ≤ t ∧ t < 9223372036854775808) :
    (∃ bs, u8Segment.write_to_stream a = .ok bs ∧ bs.length = 1 ∧
      u8Segment.read_from_stream s (bs ++ rest) = .ok (a, rest))
    ∧ (∃ bs, u16Segment.write_to_stream b = .ok bs ∧ bs.length = 2 ∧
      u16Segment.read_from_stream s (bs ++ rest) = .ok (b, rest))
    ∧ (∃ bs, u32Segment.write_to_stream c = .ok bs ∧ bs.length = 4 ∧
      u32Segment.read_from_stream s (bs ++ rest) = .ok (c, rest))
    ∧ (∃ bs, u64Segment.write_to_stream d = .ok bs ∧ bs.length = 8 ∧
      u64Segment.read_from_stream s (bs ++ rest) = .ok (d, rest))
    ∧ (∃ bs, i8Segment.write_to_stream p = .ok bs ∧ bs.length = 1 ∧
      i8Segment.read_from_stream si (bs ++ rest) = .ok (p, rest))
    ∧ (∃ bs, i16Segment.write_to_stream q = .ok bs ∧ bs.length = 2 ∧
      i16Segment.read_from_stream si (bs ++ rest) = .ok (q, rest))
    ∧ (∃ bs, i32Segment.write_to_stream r = .ok bs ∧ bs.length = 4 ∧
      i32Segment.read_from_stream si (bs ++ rest) = .ok (r, rest))
    ∧ (∃ bs, i64Segment.write_to_stream t = .ok bs ∧ bs.length = 8 ∧
      i64Segment.read_from_stream si (bs ++ rest) = .ok (t, rest)) := by
  refine ⟨⟨_, rfl, rfl, ?_⟩, ⟨_, rfl, rfl, ?_⟩, ⟨_, rfl, rfl, ?_⟩,
    ⟨_, rfl, rfl, ?_⟩, ⟨_, rfl, rfl, ?_⟩, ⟨_, rfl, rfl, ?_⟩,
    ⟨_, rfl, rfl, ?_⟩, ⟨_, rfl, rfl, ?_⟩⟩
  · show Except.ok (a % 256, rest) = Except.ok (a, rest)
    have h : a % 256 = a := by omega
    rw [h]
  · show Except.ok (b / 256 % 256 * 256 + b % 256, rest) = Except.ok (b, rest)
    have h : b / 256 % 256 * 256 + b % 256 = b := by omega
    rw [h]
  · show Except.ok (c / 16777216 % 256 * 16777216 + c / 65536 % 256 * 65536 +
      c / 256 % 256 * 256 + c % 256, rest) = Except.ok (c, rest)
    have h : c / 16777216 % 256 * 16777216 + c / 65536 % 256 * 65536 +
      c / 256 % 256 * 256 + c % 256 = c := by omega
    rw [h]
  · show Except.ok (d / 72057594037927936 % 256 * 72057594037927936 +
      d / 281474976710656 % 256 * 281474976710656 +
      d / 1099511627776 % 256 * 1099511627776 +
      d / 4294967296 % 256 * 4294967296 +
      d / 16777216 % 256 * 16777216 + d / 65536 % 256 * 65536 +
      d / 256 % 256 * 256 + d % 256, rest) = Except.ok (d, rest)
    have h : d / 72057594037927936 % 256 * 72057594037927936 +
      d / 281474976710656 % 256 * 281474976710656 +
      d / 1099511627776 % 256 * 1099511627776 +
      d / 4294967296 % 256 * 4294967296 +
      d / 16777216 % 256 * 16777216 + d / 65536 % 256 * 65536 +
      d / 256 % 256 * 256 + d % 256 = d := by omega
    rw [h]
  · show Except.ok
      (if (p % 256).toNat < 128 then ((p % 256).toNat : Int)
       else ((p % 256).toNat : Int) - 256, rest) = Except.ok (p, rest)
    have h : (if (p % 256).toNat < 128 then ((p % 256).toNat : Int)
       else ((p % 256).toNat : Int) - 256) = p := by
      split <;> omega
    rw [h]
  · show Except.ok
      (if (q % 65536).toNat / 256 % 256 * 256 + (q % 65536).toNat % 256 < 32768
       then (((q % 65536).toNat / 256 % 256 * 256 + (q % 65536).toNat % 256 : Nat) : Int)
       else (((q % 65536).toNat / 256 % 256 * 256 + (q % 65536).toNat % 256 : Nat) : Int)
         - 65536, rest) = Except.ok (q, rest)
    have h : (if (q % 65536).toNat / 256 % 256 * 256 + (q % 65536).toNat % 256 < 32768
       then (((q % 65536).toNat / 256 % 256 * 256 + (q % 65536).toNat % 256 : Nat) : Int)
       else (((q % 65536).toNat / 256 % 256 * 256 + (q % 65536).toNat % 256 : Nat) : Int)
         - 65536) = q := by
      split <;> omega
    rw [h]
  · show Except.ok
      (if (r % 4294967296).toNat / 16777216 % 256 * 16777216 +
          (r % 4294967296).toNat / 65536 % 256 * 65536 +
          (r % 4294967296).toNat / 256 % 256 * 256 +
          (r % 4294967296).toNat % 256 < 2147483648
       then (((r % 4294967296).toNat / 16777216 % 256 * 16777216 +
          (r % 4294967296).toNat / 65536 % 256 * 65536 +
          (r % 4294967296).toNat / 256 % 256 * 256 +
          (r % 4294967296).toNat % 256 : Nat) : Int)
       else (((r % 4294967296).toNat / 16777216 % 256 * 16777216 +
          (r % 4294967296).toNat / 65536 % 256 * 65536 +
          (r % 4294967296).toNat / 256 % 256 * 256 +
          (r % 4294967296).toNat % 256 : Nat) : Int) - 4294967296, rest)
      = Except.ok (r, rest)
    have h : (if (r % 4294967296).toNat / 16777216 % 256 * 16777216 +
          (r % 4294967296).toNat / 65536 % 256 * 65536 +
          (r % 4294967296).toNat / 256 % 256 * 256 +
          (r % 4294967296).toNat % 256 < 2147483648
       then (((r % 4294967296).toNat / 16777216 % 256 * 16777216 +
          (r % 4294967296).toNat / 65536 % 256 * 65536 +
          (r % 4294967296).toNat / 256 % 256 * 256 +
          (r % 4294967296).toNat % 256 : Nat) : Int)
       else (((r % 4294967296).toNat / 16777216 % 256 * 16777216 +
          (r % 4294967296).toNat / 65536 % 256 * 65536 +
          (r % 4294967296).toNat / 256 % 256 * 256 +
          (r % 4294967296).toNat % 256 : Nat) : Int) - 4294967296) = r := by
      split <;> omega
    rw [h]
  · show Except.ok
      (if (t % 18446744073709551616).toNat / 72057594037927936 % 256 * 72057594037927936 +
          (t % 18446744073709551616).toNat / 281474976710656 % 256 * 281474976710656 +
          (t % 18446744073709551616).toNat / 1099511627776 % 256 * 1099511627776 +
          (t % 18446744073709551616).toNat / 4294967296 % 256 * 4294967296 +
          (t % 18446744073709551616).toNat / 16777216 % 256 * 16777216 +
          (t % 18446744073709551616).toNat / 65536 % 256 * 65536 +
          (t % 18446744073709551616).toNat / 256 % 256 * 256 +
          (t % 18446744073709551616).toNat % 256 < 9223372036854775808
       then (((t % 18446744073709551616).toNat / 72057594037927936 % 256 * 72057594037927936 +
          (t % 18446744073709551616).toNat / 281474976710656 % 256 * 281474976710656 +
          (t % 18446744073709551616).toNat / 1099511627776 % 256 * 1099511627776 +
          (t % 18446744073709551616).toNat / 4294967296 % 256 * 4294967296 +
          (t % 18446744073709551616).toNat / 16777216 % 256 * 16777216 +
          (t % 18446744073709551616).toNat / 65536 % 256 * 65536 +
          (t % 18446744073709551616).toNat / 256 % 256 * 256 +
          (t % 18446744073709551616).toNat % 256 : Nat) : Int)
       else (((t % 18446744073709551616).toNat / 72057594037927936 % 256 * 72057594037927936 +
          (t % 18446744073709551616).toNat / 281474976710656 % 256 * 281474976710656 +
          (t % 18446744073709551616).toNat / 1099511627776 % 256 * 1099511627776 +
          (t % 18446744073709551616).toNat / 4294967296 % 256 * 4294967296 +
          (t % 18446744073709551616).toNat / 16777216 % 256 * 16777216 +
          (t % 18446744073709551616).toNat / 65536 % 256 * 65536 +
          (t % 18446744073709551616).toNat / 256 % 256 * 256 +
          (t % 18446744073709551616).toNat % 256 : Nat) : Int) - 18446744073709551616,
       rest) = Except.ok (t, rest)
    have h : (if (t % 18446744073709551616).toNat / 72057594037927936 % 256 * 72057594037927936 +
          (t % 18446744073709551616).toNat / 281474976710656 % 256 * 281474976710656 +
          (t % 18446744073709551616).toNat / 1099511627776 % 256 * 1099511627776 +
          (t % 18446744073709551616).toNat / 4294967296 % 256 * 4294967296 +
          (t % 18446744073709551616).toNat / 16777216 % 256 * 16777216 +
          (t % 18446744073709551616).toNat / 65536 % 256 * 65536 +
          (t % 18446744073709551616).toNat / 256 % 256 * 256 +
          (t % 18446744073709551616).toNat % 256 < 9223372036854775808
       then (((t % 18446744073709551616).toNat / 72057594037927936 % 256 * 72057594037927936 +
          (t % 18446744073709551616).toNat / 281474976710656 % 256 * 281474976710656 +
          (t % 18446744073709551616).toNat / 1099511627776 % 256 * 1099511627776 +
          (t % 18446744073709551616).toNat / 4294967296 % 256 * 4294967296 +
          (t % 18446744073709551616).toNat / 16777216 % 256 * 16777216 +
          (t % 18446744073709551616).toNat / 65536 % 256 * 65536 +
          (t % 18446744073709551616).toNat / 256 % 256 * 256 +
          (t % 18446744073709551616).toNat % 256 : Nat) : Int)
       else (((t % 18446744073709551616).toNat / 72057594037927936 % 256 * 72057594037927936 +
          (t % 18446744073709551616).toNat / 281474976710656 % 256 * 281474976710656 +
          (t % 18446744073709551616).toNat / 1099511627776 % 256 * 1099511627776 +
          (t % 18446744073709551616).toNat / 4294967296 % 256 * 4294967296 +
          (t % 18446744073709551616).toNat / 16777216 % 256 * 16777216 +
          (t % 18446744073709551616).toNat / 65536 % 256 * 65536 +
          (t % 18446744073709551616).toNat / 256 % 256 * 256 +
          (t % 18446744073709551616).toNat % 256 : Nat) : Int) - 18446744073709551616)
       = t := by
      split <;> omega
    rw [h]

/-- Closed witness for `intSegments_roundtrip` at concrete values of
every integer type, including negative signed values. -/
theorem intSegments_roundtrip_witness :
    (∃ bs, u8Segment.write_to_stream (7 : Nat) = .ok bs ∧ bs.length = 1 ∧
      u8Segment.read_from_stream (0 : Nat) (bs ++ [9]) = .ok ((7 : Nat), [9]))
    ∧ (∃ bs, u16Segment.write_to_stream (258 : Nat) = .ok bs ∧ bs.length = 2 ∧
      u16Segment.read_from_stream (0 : Nat) (bs ++ [9]) = .ok ((258 : Nat), [9]))
    ∧ (∃ bs, u32Segment.write_to_stream (70000 : Nat) = .ok bs ∧ bs.length = 4 ∧
      u32Segment.read_from_stream (0 : Nat) (bs ++ [9]) = .ok ((70000 : Nat), [9]))
    ∧ (∃ bs, u64Segment.write_to_stream (9223372036854775809 : Nat) = .ok bs ∧ bs.length = 8 ∧
      u64Segment.read_from_stream (0 : Nat) (bs ++ [9]) = .ok ((9223372036854775809 : Nat), [9]))
    ∧ (∃ bs, i8Segment.write_to_stream (-5 : Int) = .ok bs ∧ bs.length = 1 ∧
      i8Segment.read_from_stream (0 : Int) (bs ++ [9]) = .ok ((-5 : Int), [9]))
    ∧ (∃ bs, i16Segment.write_to_stream (-300 : Int) = .ok bs ∧ bs.length = 2 ∧
      i16Segment.read_from_stream (0 : Int) (bs ++ [9]) = .ok ((-300 : Int), [9]))
    ∧ (∃ bs, i32Segment.write_to_stream (-70000 : Int) = .ok bs ∧ bs.length = 4 ∧
      i32Segment.read_from_stream (0 : Int) (bs ++ [9]) = .ok ((-70000 : Int), [9]))
    ∧ (∃ bs, i64Segment.write_to_stream (-5000000000 : Int) = .ok bs ∧ bs.length = 8 ∧
      i64Segment.read_from_stream (0 : Int) (bs ++ [9]) = .ok ((-5000000000 : Int), [9])) :=
  intSegments_roundtrip 0 0 [9] 7 (by decide) 258 (by decide) 70000 (by decide)
    9223372036854775809 (by decide) (-5) (by decide) (-300) (by decide)
    (-70000) (by decide) (-5000000000) (by decide)

/-- C7: for every inner codec, `Option` decode ignores the receiver,
always decodes into a default inner value and on success stores it as
present; an inner decode error propagates; encoding an absent value
writes zero bytes and succeeds, and encoding a present value writes
exactly the inner encoding. -/
theorem optionSegment_spec (C : SegCodec) (self other : Option C.Ty)
    (input : List Nat) :
    (optionSegment C).read_from_stream self input
      = (optionSegment C).read_from_stream other input
    ∧ (∀ t rest, C.read_from_stream C.default input = .ok (t, rest) →
        (optionSegment C).read_from_stream self input = .ok (some t, rest))
    ∧ (∀ e, C.read_from_stream C.default input = .error e →
        (optionSegment C).read_from_stream self input = .error e)
    ∧ (optionSegment C).write_to_stream none = .ok []
    ∧ (∀ t, (optionSegment C).write_to_stream (some t) = C.write_to_stream t) := by
  have hrw : (optionSegment C).read_from_stream self input
      = match C.read_from_stream C.default input with
        | .error e => .error e
        | .ok (t, rest) => .ok (some t, rest) := rfl
  refine ⟨rfl, ?_, ?_, rfl, fun t => rfl⟩
  · intro t rest h
    rw [hrw, h]
  · intro e h
    rw [hrw, h]

/-- Closed witness for `optionSegment_spec` at the `u8` codec. -/
theorem optionSegment_spec_witness :
    (optionSegment u8Segment).read_from_stream (some (3 : Nat)) [5] = .ok (some (5 : Nat), [])
    ∧ (optionSegment u8Segment).write_to_stream (none : Option Nat) = .ok []
    ∧ (optionSegment u8Segment).write_to_stream (some (3 : Nat)) = .ok [3] := by
  have h := optionSegment_spec u8Segment (some (3 : Nat)) none [5]
  exact ⟨h.2.1 (5 : Nat) [] rfl, h.2.2.2.1, h.2.2.2.2 (3 : Nat)⟩

/-- C10: the `Option` container does not round-trip an absent value:
encoding `none` produces zero bytes, and for an inner codec whose
decode fails on the empty stream, decoding those zero bytes yields that
error, never a successful absent value; a successful `Option` decode
always produces a present value. -/
theorem optionSegment_absent_not_roundtripped (C : SegCodec)
    (self : Option C.Ty) (e : StreamError)
    (h : C.read_from_stream C.default [] = .error e) :
    (optionSegment C).write_to_stream (none : Option C.Ty) = .ok []
    ∧ (optionSegment C).read_from_stream self [] = .error e
    ∧ (∀ input o rest,
        (optionSegment C).read_from_stream self input = .ok (o, rest) →
        ∃ t, o = some t) := by
  refine ⟨rfl, ?_, ?_⟩
  · have hrw : (optionSegment C).read_from_stream self []
        = match C.read_from_stream C.default [] with
          | .error e => .error e
          | .ok (t, rest) => .ok (some t, rest) := rfl
    rw [hrw, h]
  · intro input o rest h2
    have hrw : (optionSegment C).read_from_stream self input
        = match C.read_from_stream C.default input with
          | .error e => .error e
          | .ok (t, rest) => .ok (some t, rest) := rfl
    rw [hrw] at h2
    cases hr : C.read_from_stream C.default input with
    | error e2 => rw [hr] at h2; simp at h2
    | ok tr =>
      obtain ⟨t, r⟩ := tr
      rw [hr] at h2
      simp at h2
      exact ⟨t, h2.1.symm⟩

/-- Closed witness for `optionSegment_absent_not_roundtripped` at the
`u8` codec, whose decode consumes one byte. -/
theorem optionSegment_absent_not_roundtripped_witness :
    (optionSegment u8Segment).write_to_stream (none : Option Nat) = .ok []
    ∧ (optionSegment u8Segment).read_from_stream (none : Option Nat) []
        = .error .unexpectedEof
    ∧ (∃ t, (some (4 : Nat) : Option Nat) = some t) := by
  have h := optionSegment_absent_not_roundtripped u8Segment
    (none : Option Nat) .unexpectedEof rfl
  exact ⟨h.1, h.2.1, h.2.2 [4] (some (4 : Nat)) [] rfl⟩

/-!
Theorems about the generated packet-record codecs.
-/

/-- C5: for the record `{flag: bool, value: u8 where flag == true}`,
encoding `{flag: false, value: 7}` writes only the flag byte — the
value byte is omitted — and decoding those bytes into a
default-constructed record consumes exactly that byte and yields
`{flag: false, value: 0}`: the field absent under its predicate is
neither read nor written and retains its default. -/
theorem cond_record_scenario :
    Record.write_to_stream condSchema condFlag7 = .ok [0]
    ∧ (∃ w, Record.read_from_stream condSchema (defaultState condSchema) [0]
        = .ok (w, [])
      ∧ w ⟨0, by omega⟩ = false ∧ w ⟨1, by omega⟩ = (0 : Nat)) :=
  ⟨rfl, ⟨_, rfl, rfl, rfl⟩⟩

/-- Unfolding equation for one step of the decode loop. -/
theorem readFieldsAux_succ {n : Nat} (S : RecordSchema n) (m k : Nat)
    (s : RecState S.fc) (input : List Nat) :
    readFieldsAux S (m + 1) k s input =
    if h : k < n then
      if S.pred ⟨k, h⟩ s then
        match (S.fc ⟨k, h⟩).read_from_stream (S.fc ⟨k, h⟩).default input with
        | .error e => .error e
        | .ok (v, rest) =>
          readFieldsAux S m (k + 1) (Function.update s ⟨k, h⟩ v) rest
      else
        readFieldsAux S m (k + 1)
          (Function.update s ⟨k, h⟩ (S.fc ⟨k, h⟩).default) input
    else
      .ok (s, input) := by
  rw [readFieldsAux]

/-- Unfolding equation for one step of the encode loop. -/
theorem writeFieldsAux_succ {n : Nat} (S : RecordSchema n) (m k : Nat)
    (s : RecState S.fc) :
    writeFieldsAux S (m + 1) k s =
    if h : k < n then
      if S.pred ⟨k, h⟩ s then
        match (S.fc ⟨k, h⟩).write_to_stream (s ⟨k, h⟩) with
        | .error e => .error e
        | .ok bs =>
          match writeFieldsAux S m (k + 1) s with
          | .error e => .error e
          | .ok rest => .ok (bs ++ rest)
      else
        writeFieldsAux S m (k + 1) s
    else
      .ok [] := by
  rw [writeFieldsAux]

/-- Decode inverts encode, one loop suffix at a time: if every
predicate reads only strictly earlier fields, every field codec
round-trips, and every field absent under its predicate holds its
default value in `v`, then decoding the bytes written for fields
`k, ..., n-1` of `v` into any receiver that already agrees with `v`
strictly below `k` reproduces `v` exactly and consumes exactly those
bytes. -/
theorem readFieldsAux_roundtrip {n : Nat} (S : RecordSchema n)
    (hpred : ∀ (i : Fin n) (s t : RecState S.fc),
      (∀ j : Fin n, j < i → s j = t j) → S.pred i s = S.pred i t)
    (hrt : ∀ (i : Fin n) (w : (S.fc i).Ty) (bs rest : List Nat),
      (S.fc i).write_to_stream w = .ok bs →
      (S.fc i).read_from_stream (S.fc i).default (bs ++ rest) = .ok (w, rest))
    (v : RecState S.fc)
    (hdef : ∀ i : Fin n, S.pred i v = false → v i = (S.fc i).default) :
    ∀ (m k : Nat), n ≤ k + m →
    ∀ s : RecState S.fc, (∀ j : Fin n, j.val < k → s j = v j) →
    ∀ (bs rest : List Nat), writeFieldsAux S m k v = .ok bs →
      readFieldsAux S m k s (bs ++ rest) = .ok (v, rest) := by
  intro m
  induction m with
  | zero =>
    intro k hk s hs bs rest hw
    have hsv : s = v := funext fun j => hs j (by omega)
    have hbs : bs = [] := by
      have h0 : writeFieldsAux S 0 k v = .ok [] := rfl
      rw [h0] at hw
      injection hw with h2
      exact h2.symm
    subst hsv hbs
    rfl
  | succ m ih =>
    intro k hk s hs bs rest hw
    by_cases h : k < n
    · have hpi : S.pred ⟨k, h⟩ s = S.pred ⟨k, h⟩ v :=
        hpred ⟨k, h⟩ s v (fun j hj => hs j hj)
      rw [writeFieldsAux_succ, dif_pos h] at hw
      rw [readFieldsAux_succ, dif_pos h, hpi]
      by_cases hp : S.pred ⟨k, h⟩ v = true
      · rw [if_pos hp] at hw ⊢
        cases hwv : (S.fc ⟨k, h⟩).write_to_stream (v ⟨k, h⟩) with
        | error e => rw [hwv] at hw; simp at hw
        | ok bs1 =>
          rw [hwv] at hw
          cases hwr : writeFieldsAux S m (k + 1) v with
          | error e => rw [hwr] at hw; simp at hw
          | ok bs2 =>
            rw [hwr] at hw
            simp only [] at hw
            injection hw with h2
            subst h2
            rw [List.append_assoc,
              hrt ⟨k, h⟩ (v ⟨k, h⟩) bs1 (bs2 ++ rest) hwv]
            apply ih (k + 1) (by omega) _ ?_ bs2 rest hwr
            intro j hj
            by_cases hji : j = ⟨k, h⟩
            · subst hji
              exact Function.update_same _ _ _
            · rw [Function.update_noteq hji]
              have hjk : j.val ≠ k := fun hh => hji (Fin.ext hh)
              exact hs j (by omega)
      · rw [if_neg hp] at hw ⊢
        have hp2 : S.pred ⟨k, h⟩ v = false := by
          revert hp
          cases S.pred ⟨k, h⟩ v <;> simp
        apply ih (k + 1) (by omega) _ ?_ bs rest hw
        intro j hj
        by_cases hji : j = ⟨k, h⟩
        · subst hji
          rw [Function.update_same]
          exact (hdef ⟨k, h⟩ hp2).symm
        · rw [Function.update_noteq hji]
          have hjk : j.val ≠ k := fun hh => hji (Fin.ext hh)
          exact hs j (by omega)
    · have hsv : s = v := funext fun j => hs j (by omega)
      have hbs : bs = [] := by
        rw [writeFieldsAux_succ, dif_neg h] at hw
        injection hw with h2
        exact h2.symm
      subst hsv hbs
      rw [readFieldsAux_succ, dif_neg h]
      rfl

/-- Helper: the `bool` codec round-trips every value. -/
theorem boolSegment_roundtrip (w : Bool) (bs rest : List Nat)
    (h : boolSegment.write_to_stream w = .ok bs) :
    boolSegment.read_from_stream boolSegment.default (bs ++ rest)
      = .ok (w, rest) := by
  have hbs : bs = [if w then 1 else 0] := by
    have hrw : boolSegment.write_to_stream w = .ok [if w then 1 else 0] := rfl
    rw [hrw] at h
    injection h with h2
    exact h2.symm
  subst hbs
  cases w <;> rfl

/-- Helper: every presence predicate of the scenario record
`{flag: bool, value: u8 where flag == true}` reads only strictly
earlier fields. -/
theorem condSchema_pred_local (i : Fin 2) (s t : RecState condSchema.fc)
    (hagree : ∀ j : Fin 2, j < i → s j = t j) :
    condSchema.pred i s = condSchema.pred i t := by
  match i with
  | ⟨0, _⟩ => rfl
  | ⟨1, _⟩ => exact hagree ⟨0, by omega⟩ Nat.zero_lt_one

/-- C1 (amended): for every generated record type whose presence
predicates read only strictly earlier fields and whose field codecs
round-trip, and every value `v` in which each field absent under its
predicate holds its default value, encoding `v` and decoding the
produced bytes into a default-constructed record reproduces `v`
field-for-field and consumes exactly the bytes written. -/
theorem record_roundtrip {n : Nat} (S : RecordSchema n)
    (hpred : ∀ (i : Fin n) (s t : RecState S.fc),
      (∀ j : Fin n, j < i → s j = t j) → S.pred i s = S.pred i t)
    (hrt : ∀ (i : Fin n) (w : (S.fc i).Ty) (bs rest : List Nat),
      (S.fc i).write_to_stream w = .ok bs →
      (S.fc i).read_from_stream (S.fc i).default (bs ++ rest) = .ok (w, rest))
    (v : RecState S.fc)
    (hdef : ∀ i : Fin n, S.pred i v = false → v i = (S.fc i).default)
    (bs rest : List Nat)
    (hw : Record.write_to_stream S v = .ok bs) :
    Record.read_from_stream S (defaultState S) (bs ++ rest) = .ok (v, rest) :=
  readFieldsAux_roundtrip S hpred hrt v hdef n 0 (by omega)
    (defaultState S) (fun j hj => absurd hj (by omega)) bs rest hw

/-- Closed witness for `record_roundtrip`: the record
`{flag: bool, value: bool where flag}` at the value
`{flag: true, value: true}`, whose encoding is `[1, 1]`. -/
theorem record_roundtrip_witness :
    Record.read_from_stream boolPairSchema (defaultState boolPairSchema)
      ([1, 1] ++ [9]) = .ok (boolPairTT, [9]) := by
  apply record_roundtrip boolPairSchema ?_ ?_ boolPairTT ?_ [1, 1] [9] rfl
  · intro i s t hagree
    match i with
    | ⟨0, _⟩ => rfl
    | ⟨1, _⟩ => exact hagree ⟨0, by omega⟩ Nat.zero_lt_one
  · intro i w bs rest h
    match i with
    | ⟨0, _⟩ => exact boolSegment_roundtrip w bs rest h
    | ⟨1, _⟩ => exact boolSegment_roundtrip w bs rest h
  · intro i hfalse
    match i with
    | ⟨0, _⟩ => exact Bool.noConfusion hfalse
    | ⟨1, _⟩ => exact Bool.noConfusion hfalse

/-- Counterexample to C1 as stated: for the scenario record, the value
`{flag: false, value: 7}` has internally consistent predicates in the
claim's sense (every predicate reads only strictly earlier fields),
yet decoding its encoding `[0]` yields `value = 0`, not `7` — the
claim omits the requirement that fields absent under their predicate
hold their default value. -/
theorem record_roundtrip_cex :
    (∀ (i : Fin 2) (s t : RecState condSchema.fc),
      (∀ j : Fin 2, j < i → s j = t j) → condSchema.pred i s = condSchema.pred i t)
    ∧ Record.write_to_stream condSchema condFlag7 = .ok [0]
    ∧ (∃ w, Record.read_from_stream condSchema (defaultState condSchema) [0]
        = .ok (w, [])
      ∧ w ⟨1, by omega⟩ = (0 : Nat))
    ∧ condFlag7 ⟨1, by omega⟩ = (7 : Nat) :=
  ⟨condSchema_pred_local, rfl, ⟨_, rfl, rfl⟩, rfl⟩

/-- Helper for C6: starting at field `k`, two receivers that agree on
the fields strictly below `k` decode identically whenever every
predicate reads only strictly earlier fields. -/
theorem readFieldsAux_receiver_independent {n : Nat} (S : RecordSchema n)
    (hpred : ∀ (i : Fin n) (s t : RecState S.fc),
      (∀ j : Fin n, j < i → s j = t j) → S.pred i s = S.pred i t) :
    ∀ (m k : Nat), n ≤ k + m →
    ∀ (s t : RecState S.fc), (∀ j : Fin n, j.val < k → s j = t j) →
    ∀ input : List Nat,
      readFieldsAux S m k s input = readFieldsAux S m k t input := by
  intro m
  induction m with
  | zero =>
    intro k hk s t hst input
    have hsv : s = t := funext fun j => hst j (by omega)
    rw [hsv]
  | succ m ih =>
    intro k hk s t hst input
    by_cases h : k < n
    · have hpi : S.pred ⟨k, h⟩ s = S.pred ⟨k, h⟩ t :=
        hpred ⟨k, h⟩ s t (fun j hj => hst j hj)
      rw [readFieldsAux_succ, readFieldsAux_succ, dif_pos h, dif_pos h, hpi]
      by_cases hp : S.pred ⟨k, h⟩ t = true
      · rw [if_pos hp, if_pos hp]
        cases hr : (S.fc ⟨k, h⟩).read_from_stream (S.fc ⟨k, h⟩).default input with
        | error e => rfl
        | ok vr =>
          obtain ⟨v, rest⟩ := vr
          apply ih (k + 1) (by omega)
          intro j hj
          by_cases hji : j = ⟨k, h⟩
          · subst hji
            rw [Function.update_same, Function.update_same]
          · rw [Function.update_noteq hji, Function.update_noteq hji]
            have hjk : j.val ≠ k := fun hh => hji (Fin.ext hh)
            exact hst j (by omega)
      · rw [if_neg hp, if_neg hp]
        apply ih (k + 1) (by omega)
        intro j hj
        by_cases hji : j = ⟨k, h⟩
        · subst hji
          rw [Function.update_same, Function.update_same]
        · rw [Function.update_noteq hji, Function.update_noteq hji]
          have hjk : j.val ≠ k := fun hh => hji (Fin.ext hh)
          exact hst j (by omega)
    · have hsv : s = t := funext fun j => hst j (by omega)
      rw [hsv]

/-- C6 (amended): the generated decode routine evaluates each presence
predicate against the full record — in which earlier fields hold the
freshly decoded values and the current and later fields still hold the
receiver's prior values — so the restricted view is not enforced by
construction; however, for every record type whose predicates read
only strictly earlier fields, the outcome of `read_from_stream`
(resulting field values and bytes consumed) is independent of the
receiver's initial field values. -/
theorem read_receiver_independent {n : Nat} (S : RecordSchema n)
    (hpred : ∀ (i : Fin n) (s t : RecState S.fc),
      (∀ j : Fin n, j < i → s j = t j) → S.pred i s = S.pred i t)
    (s t : RecState S.fc) (input : List Nat) :
    Record.read_from_stream S s input = Record.read_from_stream S t input :=
  readFieldsAux_receiver_independent S hpred n 0 (by omega) s t
    (fun j hj => absurd hj (by omega)) input

/-- Closed witness for `read_receiver_independent`: two receivers of
the scenario record that differ in field 1 decode `[1, 1]`
identically. -/
theorem read_receiver_independent_witness :
    Record.read_from_stream condSchema condFlag7 [1, 1]
      = Record.read_from_stream condSchema (defaultState condSchema) [1, 1] :=
  read_receiver_independent condSchema condSchema_pred_local condFlag7
    (defaultState condSchema) [1, 1]

/-- Counterexample to C6 as stated: for the repository's own test
record shape (field 1 declared `test2: u8 where |s|{s.test2 > 1}`),
two receivers that agree on field 0 — the only strictly earlier
field — and differ only in the initial values of the current and later
fields decode the same bytes `[1, 2, 3]` to different field values and
consume different numbers of bytes, so the decode outcome does depend
on the receiver's initial value of the current field. -/
theorem read_receiver_dependent_cex :
    recvFive ⟨0, by omega⟩ = defaultState selfCondSchema ⟨0, by omega⟩
    ∧ (∃ w, Record.read_from_stream selfCondSchema recvFive [1, 2, 3]
        = .ok (w, []) ∧ w ⟨1, by omega⟩ = (2 : Nat))
    ∧ (∃ w, Record.read_from_stream selfCondSchema
        (defaultState selfCondSchema) [1, 2, 3]
        = .ok (w, [3]) ∧ w ⟨1, by omega⟩ = (0 : Nat)) :=
  ⟨rfl, ⟨_, rfl, rfl⟩, ⟨_, rfl, rfl⟩⟩

/-!
Theorems about the generated dispatcher.
-/

/-- C3: for a triple with no registered record type, every level of
the generated nested match falls through, so the dispatcher returns
success with no value — never an error — and consumes no bytes from
the stream. -/
theorem packet_by_id_unrecognized {Pkt : Type} (schema : ProtocolSchema Pkt)
    (state : State) (direction : Direction) (id : Int) (input : List Nat)
    (h : registeredEntry schema state direction id = none) :
    packet_by_id schema state direction id input = .ok (none, input) := by
  unfold packet_by_id
  unfold registeredEntry at h
  cases h1 : List.find? (fun arm => arm.1 == state) schema with
  | none => rfl
  | some sd =>
    obtain ⟨st, dirs⟩ := sd
    rw [h1] at h
    show directionMatch dirs direction id input = .ok (none, input)
    replace h : registeredInDirs dirs direction id = none := h
    unfold directionMatch
    unfold registeredInDirs at h
    cases h2 : List.find? (fun arm => arm.1 == direction) dirs with
    | none => rfl
    | some de =>
      obtain ⟨dr, entries⟩ := de
      rw [h2] at h
      show idMatch entries id input = .ok (none, input)
      replace h : List.find? (fun arm => arm.id == id) entries = none := h
      unfold idMatch
      rw [h]

/-- Helper: when a record type is registered for the triple, the
dispatcher runs exactly that entry's arm. -/
theorem packet_by_id_eq_runEntry {Pkt : Type} (schema : ProtocolSchema Pkt)
    (state : State) (direction : Direction) (id : Int) (input : List Nat)
    (e : PacketEntry Pkt)
    (h : registeredEntry schema state direction id = some e) :
    packet_by_id schema state direction id input = runEntry e input := by
  unfold packet_by_id
  unfold registeredEntry at h
  cases h1 : List.find? (fun arm => arm.1 == state) schema with
  | none =>
    rw [h1] at h
    exact Option.noConfusion
      (h : (none : Option (PacketEntry Pkt)) = some e)
  | some sd =>
    obtain ⟨st, dirs⟩ := sd
    rw [h1] at h
    show directionMatch dirs direction id input = runEntry e input
    replace h : registeredInDirs dirs direction id = some e := h
    unfold directionMatch
    unfold registeredInDirs at h
    cases h2 : List.find? (fun arm => arm.1 == direction) dirs with
    | none =>
      rw [h2] at h
      exact Option.noConfusion
        (h : (none : Option (PacketEntry Pkt)) = some e)
    | some de =>
      obtain ⟨dr, entries⟩ := de
      rw [h2] at h
      show idMatch entries id input = runEntry e input
      replace h : List.find? (fun arm => arm.id == id) entries = some e := h
      unfold idMatch
      rw [h]

/-- C4: for a triple with a registered record type, the dispatcher
default-constructs that record (through the `Box` forwarding impl),
runs its decode routine on the stream, and on success returns the
record wrapped in its union case; a decode failure is returned as
exactly that error. -/
theorem packet_by_id_registered {Pkt : Type} (schema : ProtocolSchema Pkt)
    (state : State) (direction : Direction) (id : Int) (input : List Nat)
    (e : PacketEntry Pkt)
    (h : registeredEntry schema state direction id = some e) :
    (∀ err, e.codec.read_from_stream e.codec.default input = .error err →
      packet_by_id schema state direction id input = .error err)
    ∧ (∀ r rest, e.codec.read_from_stream e.codec.default input = .ok (r, rest) →
      packet_by_id schema state direction id input
        = .ok (some (e.wrap r), rest)) := by
  have hrun := packet_by_id_eq_runEntry schema state direction id input e h
  have hbox : (boxSegment e.codec).read_from_stream
      (boxSegment e.codec).default input
      = e.codec.read_from_stream e.codec.default input := rfl
  constructor
  · intro err herr
    rw [hrun]
    unfold runEntry
    rw [hbox, herr]
  · intro r rest hok
    rw [hrun]
    unfold runEntry
    rw [hbox, hok]

/-- Closed witness for `packet_by_id_registered`: dispatching the
one-packet schema at its registered triple decodes the `u16` payload
`[1, 2]` to `258`, and propagates the end-of-stream error on `[]`. -/
theorem packet_by_id_registered_witness :
    packet_by_id oneSchema State.Status Direction.ClientBound 1 [1, 2]
      = .ok (some (OnePkt.statusPing 258), [])
    ∧ packet_by_id oneSchema State.Status Direction.ClientBound 1 []
      = .error .unexpectedEof := by
  have h1 := packet_by_id_registered oneSchema State.Status
    Direction.ClientBound 1 [1, 2] oneEntry rfl
  have h2 := packet_by_id_registered oneSchema State.Status
    Direction.ClientBound 1 [] oneEntry rfl
  exact ⟨h1.2 (258 : Nat) [] rfl, h2.1 .unexpectedEof rfl⟩

/-- Closed witness for `packet_by_id_unrecognized`: opcode 7 is not
registered in the one-packet schema. -/
theorem packet_by_id_unrecognized_witness :
    packet_by_id oneSchema State.Status Direction.ClientBound 7 [4, 5]
      = .ok (none, [4, 5]) :=
  packet_by_id_unrecognized oneSchema State.Status Direction.ClientBound 7
    [4, 5] rfl

/-- Helper: `List.find?` over `pre ++ x :: post` returns `x` when
nothing in `pre` matches and `x` does. -/
theorem find?_first {α : Type*} (p : α → Bool) (pre post : List α) (x : α)
    (hpre : ∀ y ∈ pre, p y = false) (hx : p x = true) :
    (pre ++ x :: post).find? p = some x := by
  induction pre with
  | nil =>
    rw [List.nil_append]
    exact List.find?_cons_of_pos post hx
  | cons y ys ih =>
    have hy : p y = false := hpre y (List.mem_cons_self y ys)
    rw [List.cons_append, List.find?_cons_of_neg _ (by simp [hy])]
    exact ih (fun z hz => hpre z (List.mem_cons_of_mem y hz))

/-- C2 (amended): declaring two record types with the same opcode in
one (state, direction) pair is not rejected — the macro performs no
uniqueness check — and at runtime the dispatcher silently resolves the
duplicate to the first-declared record type: the later duplicate entry
is never consulted. -/
theorem packet_by_id_duplicate_first {Pkt : Type}
    (schema : ProtocolSchema Pkt) (state : State) (direction : Direction)
    (id : Int) (input : List Nat) (st : State)
    (dirs : List (Direction × List (PacketEntry Pkt))) (dr : Direction)
    (pre post : List (PacketEntry Pkt)) (e1 e2 : PacketEntry Pkt)
    (h1 : schema.find? (fun arm => arm.1 == state) = some (st, dirs))
    (h2 : dirs.find? (fun arm => arm.1 == direction)
      = some (dr, pre ++ e1 :: post))
    (hpre : ∀ y ∈ pre, y.id ≠ id)
    (he1 : e1.id = id)
    (he2 : e2 ∈ post) (hdup : e2.id = id) :
    packet_by_id schema state direction id input = runEntry e1 input := by
  apply packet_by_id_eq_runEntry
  unfold registeredEntry
  rw [h1]
  show registeredInDirs dirs direction id = some e1
  unfold registeredInDirs
  rw [h2]
  show (pre ++ e1 :: post).find? (fun arm => arm.id == id) = some e1
  exact find?_first _ pre post e1
    (fun y hy => by simpa using hpre y hy) (by simpa using he1)

/-- Closed witness for `packet_by_id_duplicate_first` at the concrete
duplicated schema. -/
theorem packet_by_id_duplicate_first_witness :
    packet_by_id dupSchema State.Handshaking Direction.ServerBound 0 [9, 9]
      = runEntry dupEntryA [9, 9] :=
  packet_by_id_duplicate_first dupSchema State.Handshaking
    Direction.ServerBound 0 [9, 9] State.Handshaking
    [(Direction.ServerBound, [dupEntryA, dupEntryB])] Direction.ServerBound
    [] [dupEntryB] dupEntryA dupEntryB rfl rfl
    (fun y hy => absurd hy (List.not_mem_nil y))
    rfl (List.mem_cons_self dupEntryB []) rfl

/-- Counterexample to C2 as stated: a schema in which two record types
claim (Handshaking, ServerBound, 0x00) is constructible — nothing
fails at schema-build time — and dispatching that triple silently
succeeds, decoding via the first-declared record type (`fromA`, one
`u8`), never the second (`fromB`, one `u16`). -/
theorem schema_duplicate_cex :
    dupEntryA.id = dupEntryB.id
    ∧ packet_by_id dupSchema State.Handshaking Direction.ServerBound 0 [9, 9]
      = .ok (some (DupPkt.fromA 9), [9]) :=
  ⟨rfl, rfl⟩

end MCProto
